import Mathlib

/-!
Verification development for the `chia-ws` daemon client.

The JavaScript source (a single `Daemon` class plus helpers) is shallowly
embedded: mutable daemon state becomes an explicit `Daemon` structure that
every operation threads; JS side effects that are visible to the outside
(promise resolution/rejection, event emission, transport writes, timer
clearing) become an explicit list of `Ev` values returned next to the new
state; `setTimeout`/`clearTimeout` handles become booleans recording whether
the timer is armed; `Date.now()` becomes an explicit `now : Nat` parameter.
JS field values that the source inspects with `typeof` checks are modelled by
the small dynamic-value type `JsVal`, so "field absent", "field is a string"
and "field is something else" are all expressible.  The `sent` flag of a
query is `Option Bool`: `none` models the JS field being `undefined`
(never assigned), `some true` models the assignment `query.sent = true`
performed in `send_next` (the source never assigns `false`).
-/

/-- A (simplified) JavaScript value, rich enough for every `typeof`
test and truthiness test the source performs on message fields. -/
inductive JsVal where
  | vStr (s : String)
  | vBool (b : Bool)
  | vNum (n : Int)
  | undef
  | other
deriving DecidableEq, Repr

/-- `typeof v === 'string'`. -/
def isStr : JsVal → Bool
  | .vStr _ => true
  | _ => false

/-- JS string coercion (used for object property keys and for
template-string interpolation of a message field). -/
def jsToString : JsVal → String
  | .vStr s => s
  | .vBool b => if b then "true" else "false"
  | .vNum n => toString n
  | .undef => "undefined"
  | .other => "[object Object]"

/-- An outbound wire message object.  The fields the source reads or writes
are explicit; every other property of the JS object is carried opaquely in
`extra` (the source never touches them). -/
structure MsgObj where
  command : JsVal
  destination : JsVal
  request_id : JsVal
  origin : JsVal
  ack : JsVal
  data : JsVal
  extra : List (String × JsVal)
deriving DecidableEq, Repr

/-- The key under which a query is filed in `req_map`
(`this.req_map[req.request_id]` — JS coerces the property key to a string). -/
def reqId (m : MsgObj) : String := jsToString m.request_id

/-- The `data` object of a parsed inbound frame: `success` records the
truthiness of `msg.data.success`, `rest` carries the remaining payload. -/
structure DataObj where
  success : Bool
  rest : List (String × JsVal)
deriving DecidableEq, Repr

/-- A parsed inbound frame.  `ack` is the truthiness of `msg.ack`,
`request_id` the string-coerced `msg.request_id`, `data` is `none` when the
frame has no (object) `data` field. -/
structure Inbound where
  ack : Bool
  request_id : String
  command : JsVal
  data : Option DataObj
  extra : List (String × JsVal)
deriving DecidableEq, Repr

/-- An `Error` as far as the source observes it: the message string and the
`.req` / `.res` properties the source attaches. -/
structure ErrInfo where
  message : String
  req : Option MsgObj
  res : Option Inbound
deriving DecidableEq, Repr

/-- The argument of `wrap_error`: an `Error`, a string, or anything else. -/
inductive ErrParam where
  | err (e : ErrInfo)
  | str (s : String)
  | other
deriving DecidableEq, Repr

/-- `wrap_error(err, reason)` from the source. -/
def wrap_error : ErrParam → String → ErrInfo
  | .err e, _ => e
  | .str s, _ => { message := s, req := none, res := none }
  | .other, reason => { message := reason, req := none, res := none }

/-- One in-flight or queued request (`{req, ful, rej, timeout, t0}` plus the
later-assigned `sent`).  The fulfillment/rejection continuations are
represented by the `Ev.fulfilled` / `Ev.rejected` events that invoke them;
`timer` records whether a request-timeout timer was armed; `sent : none`
models the JS field being `undefined` until `send_next` assigns `true`. -/
structure Query where
  req : MsgObj
  sent : Option Bool
  timer : Bool
  t0 : Nat
deriving DecidableEq, Repr

/-- Truthiness of the JS value modelled by `Option Bool`
(`undefined` is falsy). -/
def truthyOpt : Option Bool → Bool
  | some b => b
  | none => false

/-- Externally observable effects of one synchronous run of source code:
event emissions, transport writes, promise resolutions/rejections,
`clearTimeout` on a query's request timer, and `setTimeout` scheduling of the
reconnect timer (carrying the computed cooldown). -/
inductive Ev where
  | debug (s : String)
  | openedConn
  | closedConn (e : ErrInfo)
  | connectError (e : ErrInfo)
  | spam (ty : String) (m : Inbound)
  | wrote (m : MsgObj)
  | fulfilled (req : MsgObj) (res : DataObj) (t : Nat)
  | rejected (req : MsgObj) (e : ErrInfo)
  | timerCleared (req : MsgObj)
  | scheduledReconnect (ms : Int)
deriving DecidableEq, Repr

/-- The mutable state of one `Daemon` instance. -/
structure Daemon where
  terminated : Bool
  connected : Bool
  disconnecting : Bool
  sending : Bool
  heartbeat_timer : Bool
  reconnect_timer : Bool
  connect_timer : Bool
  idle_timer : Bool
  ws : Bool
  req_queue : List Query
  req_map : List (String × Query)
  req_id : List Nat
  connect_timeout : Int
  request_timeout : Int
  heartbeat_period : Int
  reconnect_cooldown : Int
  idle_timeout : Int
  connect_time : Nat
deriving DecidableEq, Repr

/-- Association lookup, modelling `this.req_map[k]`. -/
def mapFind (m : List (String × Query)) (k : String) : Option Query :=
  match m with
  | [] => none
  | p :: r => if p.1 = k then some p.2 else mapFind r k

/-- JS property assignment `this.req_map[k] = q`: replace when the key
exists, append otherwise. -/
def mapInsert (m : List (String × Query)) (k : String) (q : Query) :
    List (String × Query) :=
  if m.any (fun p => p.1 = k) then
    m.map (fun p => if p.1 = k then (k, q) else p)
  else m ++ [(k, q)]

/-- `delete this.req_map[k]`. -/
def mapErase (m : List (String × Query)) (k : String) :
    List (String × Query) :=
  m.filter (fun p => ¬ p.1 = k)

/-- Mirror of the aliasing `query.sent = true` in `send_next`: the queue
entry and the map entry are one JS object, so setting the flag on the query
shifted off the queue also updates the map's entry for the same key. -/
def mapSetSent (m : List (String × Query)) (k : String) :
    List (String × Query) :=
  m.map (fun p => if p.1 = k then (p.1, { p.2 with sent := some true }) else p)

/-- `this.req_queue.splice(this.req_queue.indexOf(query), 1)`: remove the
first queued query with the given request id. -/
def eraseFirstQ : List Query → String → List Query
  | [], _ => []
  | q :: r, k => if reqId q.req = k then r else q :: eraseFirstQ r k

/-- The command-router entries, in the insertion order produced by the
`Object.entries(...).forEach` loop over the service groups. -/
def CMD_DST_entries : List (String × String) :=
  [("register_service", "daemon"),
   ("start_service", "daemon"),
   ("stop_service", "daemon"),
   ("is_running", "daemon"),
   ("get_status", "daemon"),
   ("get_blockchain_state", "chia_full_node"),
   ("get_block", "chia_full_node"),
   ("get_blocks", "chia_full_node"),
   ("get_block_record_by_height", "chia_full_node"),
   ("get_block_record", "chia_full_node"),
   ("get_block_records", "chia_full_node"),
   ("get_unfinished_block_headers", "chia_full_node"),
   ("get_network_space", "chia_full_node"),
   ("get_additions_and_removals", "chia_full_node"),
   ("get_initial_freeze_period", "chia_full_node"),
   ("get_network_info", "chia_full_node"),
   ("get_coin_records_by_puzzle_hash", "chia_full_node"),
   ("get_coin_record_by_name", "chia_full_node"),
   ("push_tx", "chia_full_node"),
   ("get_all_mempool_tx_ids", "chia_full_node"),
   ("get_all_mempool_items", "chia_full_node"),
   ("get_mempool_item_by_tx_id", "chia_full_node"),
   ("log_in", "chia_wallet"),
   ("get_public_keys", "chia_wallet"),
   ("get_private_key", "chia_wallet"),
   ("generate_mnemonic", "chia_wallet"),
   ("add_key", "chia_wallet"),
   ("delete_key", "chia_wallet"),
   ("delete_all_keys", "chia_wallet"),
   ("get_sync_status", "chia_wallet"),
   ("get_height_info", "chia_wallet"),
   ("get_initial_freeze_period", "chia_wallet"),
   ("get_network_info", "chia_wallet"),
   ("get_wallets", "chia_wallet"),
   ("get_wallet_balance", "chia_wallet"),
   ("get_transaction", "chia_wallet"),
   ("get_transactions", "chia_wallet"),
   ("get_next_address", "chia_wallet"),
   ("send_transaction", "chia_wallet"),
   ("create_backup", "chia_wallet"),
   ("get_transaction_count", "chia_wallet"),
   ("get_farmed_amount", "chia_wallet"),
   ("get_plots", "chia_harvester"),
   ("refresh_plots", "chia_harvester"),
   ("delete_plot", "chia_harvester"),
   ("add_plot_directory", "chia_harvester"),
   ("get_plot_directories", "chia_harvester"),
   ("remove_plot_directory", "chia_harvester"),
   ("get_signage_point", "chia_farmer"),
   ("get_signage_points", "chia_farmer"),
   ("get_reward_targets", "chia_farmer"),
   ("set_reward_targets", "chia_farmer")]

/-- Generic first-match association lookup over string keys. -/
def assocFind : List (String × String) → String → Option String
  | [], _ => none
  | p :: r, k => if p.1 = k then some p.2 else assocFind r k

/-- The command router `CMD_DST[cmd]`.  Repeated assignment in the build
loop means the last entry for a key wins, hence lookup on the reversed
entry list. -/
def CMD_DST (cmd : String) : Option String :=
  assocFind CMD_DST_entries.reverse cmd

/-- `advance` inner loop, written over the reversed (little-endian first)
byte list: increment the low byte, or zero it and carry. -/
def advanceRev : List Nat → List Nat
  | [] => []
  | x :: r => if x < 0xFF then (x + 1) :: r else 0 :: advanceRev r

/-- `advance(v)`: increment a big-endian byte buffer by one, with carry,
in place. -/
def advance (v : List Nat) : List Nat :=
  (advanceRev v.reverse).reverse

/-- Every byte of the buffer is in range. -/
def bytesValid (v : List Nat) : Prop := ∀ b ∈ v, b < 256

/-- Little-endian value of a byte list. -/
def leNat : List Nat → Nat
  | [] => 0
  | x :: r => x + 256 * leNat r

/-- Big-endian value of a byte buffer (the number the counter denotes). -/
def beNat (v : List Nat) : Nat := leNat v.reverse

/-- Lowercase hex digit, as produced by `Buffer.prototype.toString('hex')`:
code 48 is `0`, code 87 + 10 is `a`. -/
def hexDigit (n : Nat) : Char :=
  if n < 10 then Char.ofNat (48 + n) else Char.ofNat (87 + n)

/-- The character list of the hex rendering: two digits per byte. -/
def hexChars : List Nat → List Char
  | [] => []
  | b :: r => hexDigit (b / 16) :: hexDigit (b % 16) :: hexChars r

/-- `buffer.toString('hex')`. -/
def hexRender (v : List Nat) : String := String.mk (hexChars v)

/-- The system is idle iff nothing is queued and nothing awaits a response
(`get is_idle`). -/
def is_idle (d : Daemon) : Bool :=
  d.req_queue.isEmpty && d.req_map.isEmpty

/-- `schedule_heartbeat()`: clear and re-arm the heartbeat timer when the
period is positive. -/
def schedule_heartbeat (d : Daemon) : Daemon :=
  { d with heartbeat_timer := decide (0 < d.heartbeat_period) }

/-- `schedule_idle()`: clear the idle timer and re-arm it when the idle
policy is active and the system is idle (the two-phase chain is modelled as
the single armed timer it is). -/
def schedule_idle (d : Daemon) : Daemon :=
  { d with idle_timer := decide (0 ≤ d.idle_timeout) && is_idle d }

/-- `connect()`: guarded no-op, otherwise create the transport handle and
arm the connect timer when a positive connect timeout is configured.  The
transport event handlers installed here are modelled by the separate
functions `on_open_complete` / `handle_message` / the `disconnect` calls the
environment performs on close and error. -/
def connect (d : Daemon) : Daemon × List Ev :=
  if d.terminated then (d, [])
  else if d.disconnecting then (d, [])
  else if d.reconnect_timer then (d, [])
  else if d.ws then (d, [])
  else
    ({ d with ws := true, connect_timer := decide (0 < d.connect_timeout) },
     [.debug "Connecting..."])

/-- `send_next()`: drain one request.  Nothing queued: return.  Not
connected: attempt a connect instead.  A write already pending: return.
Otherwise raise the `sending` flag, clear the idle timer, shift the head
query off the queue, mark it sent (also on its aliased map entry) and write
its request to the transport.  The transport's write-confirmation callback
is the separate `write_confirm`. -/
def send_next (d : Daemon) : Daemon × List Ev :=
  match d.req_queue with
  | [] => (d, [])
  | q :: rest =>
    if ¬ d.connected then connect d
    else if d.sending then (d, [])
    else
      ({ d with sending := true, idle_timer := false,
                req_queue := rest,
                req_map := mapSetSent d.req_map (reqId q.req) },
       [.wrote q.req])

/-- The callback `ws.send` invokes once the write is confirmed:
`this.sending = false; this.send_next();`. -/
def write_confirm (d : Daemon) : Daemon × List Ev :=
  send_next { d with sending := false }

/-- `reject_query(query, err)`: clear the query's timer, remove it from the
queue if still there, delete it from the map, attach the original request to
the error and reject the continuation. -/
def reject_query (d : Daemon) (q : Query) (err : ErrInfo) : Daemon × List Ev :=
  ({ d with req_queue := eraseFirstQ d.req_queue (reqId q.req),
            req_map := mapErase d.req_map (reqId q.req) },
   [.timerCleared q.req, .rejected q.req { err with req := some q.req }])

/-- The `for (const query of Object.values(this.req_map))` loop of
`disconnect`, over a snapshot of the map's entries: reject each query for
which the system is terminated, reconnection is disabled, or the query was
sent.  The fields the condition reads are untouched by `reject_query`. -/
def reject_loop (d : Daemon) (entries : List (String × Query))
    (err : ErrInfo) : Daemon × List Ev :=
  match entries with
  | [] => (d, [])
  | p :: rest =>
    if d.terminated = true ∨ d.reconnect_cooldown < 0 ∨ truthyOpt p.2.sent = true then
      let r1 := reject_query d p.2 err
      let r2 := reject_loop r1.1 rest err
      (r2.1, r1.2 ++ r2.2)
    else reject_loop d rest err

/-- The state updates `disconnect` performs up front once its guards pass:
raise the `disconnecting` flag, drop `connected`, clear the idle, connect
and heartbeat timers, and kill and clear the transport handle. -/
def tornDown (d : Daemon) : Daemon :=
  { d with disconnecting := true, connected := false,
           idle_timer := false, connect_timer := false,
           heartbeat_timer := false, ws := false }

/-- `disconnect(err, idle)`: guarded teardown.  Clears the idle, connect and
heartbeat timers, kills and clears the transport, rejects the outstanding
queries selected by `reject_loop`, optionally schedules the reconnect
cooldown timer (duration reduced by the connected duration when a handshake
had completed), and emits `close` or `connect-error` according to whether
the connection had been established. -/
def disconnect (d : Daemon) (errp : ErrParam) (idle : Bool) (now : Nat) :
    Daemon × List Ev :=
  if d.ws = false then (d, [])
  else if d.disconnecting then (d, [])
  else
    let was := d.connected
    let d1 : Daemon := tornDown d
    let err := wrap_error errp "user disconnect"
    let r := reject_loop d1 d1.req_map err
    let d3 : Daemon := { r.1 with disconnecting := false }
    let r2 : Daemon × List Ev :=
      if ¬ idle ∧ 0 ≤ d3.reconnect_cooldown then
        let cooldown : Int :=
          if was then
            d3.reconnect_cooldown -
              min d3.reconnect_cooldown ((now : Int) - (d3.connect_time : Int))
          else d3.reconnect_cooldown
        ({ d3 with reconnect_timer := true },
         [.debug ("Reconnect in " ++ toString cooldown ++ "ms"),
          .scheduledReconnect cooldown])
      else (d3, [])
    let evs3 : List Ev :=
      if was then
        [.debug ("Disconnected: " ++ err.message), .closedConn err]
      else
        [.debug ("Connect Error: " ++ err.message), .connectError err]
    (r2.1, r.2 ++ r2.2 ++ evs3)

/-- The reconnect-cooldown timer's callback: clear the handle, skip the
reconnect when the idle policy is active and the system is idle, otherwise
connect. -/
def reconnect_fire (d0 : Daemon) : Daemon × List Ev :=
  let d : Daemon := { d0 with reconnect_timer := false }
  if 0 ≤ d.idle_timeout ∧ is_idle d = true then
    (d, [.debug "Reconnect avoided while idle"])
  else connect d

/-- The fulfillment callback of the handshake's `register_service` query:
cancel the connect timer, mark connected, record the connect time, clear the
`sending` flag, start the heartbeat only under the stay-connected-forever
policy, schedule the idle timer, announce, and resume draining the queue. -/
def on_open_complete (d : Daemon) (now : Nat) : Daemon × List Ev :=
  let d1 : Daemon :=
    { d with connect_timer := false, connected := true,
             connect_time := now, sending := false }
  let d2 := if d1.idle_timeout < 0 then schedule_heartbeat d1 else d1
  let d3 := schedule_idle d2
  let r := send_next d3
  (r.1, [.debug "Connected", .openedConn] ++ r.2)

/-- `create_query(req, timeout, ful, rej)`: arm the request timer when the
timeout is positive, record the creation time, and file the query in the
correlation map under its request id. -/
def create_query (d : Daemon) (req : MsgObj) (timeout : Int) (now : Nat) :
    Daemon × Query :=
  let q : Query := { req := req, sent := none,
                     timer := decide (0 < timeout), t0 := now }
  ({ d with req_map := mapInsert d.req_map (reqId req) q }, q)

/-- The ws `message` handler.  `parsed = none` models a frame that fails
`JSON.parse` (fatal).  A frame without the acknowledgment flag is surfaced
as `'ack'` spam while connected; an acknowledged frame matching no
outstanding query is surfaced as `'req'` spam while connected; a matched
frame removes the query from the map, reschedules the idle timer, clears the
request timer, and fulfils with the payload on nested success or rejects
with the request and the full response attached. -/
def handle_message (d : Daemon) (parsed : Option Inbound) (now : Nat) :
    Daemon × List Ev :=
  match parsed with
  | none =>
      disconnect d (.err { message := "expected json", req := none, res := none })
        false now
  | some msg =>
    if msg.ack = false then
      (d, if d.connected then [.spam "ack" msg] else [])
    else
      match mapFind d.req_map msg.request_id with
      | none => (d, if d.connected then [.spam "req" msg] else [])
      | some q =>
        let d1 := schedule_idle { d with req_map := mapErase d.req_map msg.request_id }
        match msg.data with
        | some dt =>
          if dt.success then
            (d1, [.timerCleared q.req, .fulfilled q.req dt (now - q.t0)])
          else
            (d1, [.timerCleared q.req,
                  .rejected q.req
                    { message := jsToString q.req.command ++ " failed",
                      req := some q.req, res := some msg }])
        | none =>
            (d1, [.timerCleared q.req,
                  .rejected q.req
                    { message := jsToString q.req.command ++ " failed",
                      req := some q.req, res := some msg }])

/-- `shutdown()`: once only — mark terminated, cancel a pending reconnect
timer, and force a teardown with a `terminated` error, tagged to suppress
automatic reconnection. -/
def shutdown (d : Daemon) (now : Nat) : Daemon × List Ev :=
  if d.terminated then (d, [])
  else
    let d1 : Daemon := { d with terminated := true, reconnect_timer := false }
    disconnect d1 (.err { message := "terminated", req := none, res := none })
      true now

/-- The argument of `prepare`: a bare command name or a message object. -/
inductive PrepareInput where
  | str (s : String)
  | obj (m : MsgObj)
deriving DecidableEq, Repr

/-- The tail of `prepare` after the destination is settled: assign a fresh
request id from the advanced counter when the present one is not a string,
then stamp the origin and force the acknowledgment flag false. -/
def prepare_id (d : Daemon) (msg : MsgObj) : Daemon × MsgObj :=
  match msg.request_id with
  | .vStr s =>
      (d, { msg with request_id := .vStr s,
                     origin := .vStr "wallet_ui", ack := .vBool false })
  | _ =>
      ({ d with req_id := advance d.req_id },
       { msg with request_id := .vStr (hexRender (advance d.req_id)),
                  origin := .vStr "wallet_ui", ack := .vBool false })

/-- `prepare(msg)`: wrap a bare command name, require a string command,
fill the destination from the router when absent (failing when the command
is unmapped), assign a fresh identifier when absent, stamp the origin and
force the acknowledgment flag false.  State is threaded so the error paths
exhibit the untouched daemon. -/
def prepare (d : Daemon) (input : PrepareInput) :
    Daemon × Except ErrInfo MsgObj :=
  let msg : MsgObj :=
    match input with
    | .str s => { command := .vStr s, destination := .undef,
                  request_id := .undef, origin := .undef,
                  ack := .undef, data := .undef, extra := [] }
    | .obj m => m
  match msg.command with
  | .vStr cmd =>
    match msg.destination, CMD_DST cmd with
    | .vStr s, _ =>
        let r := prepare_id d { msg with destination := .vStr s }
        (r.1, .ok r.2)
    | _, some dst =>
        let r := prepare_id d { msg with destination := .vStr dst }
        (r.1, .ok r.2)
    | _, none =>
        (d, .error { message := "unknown command destination: " ++ cmd,
                     req := none, res := none })
  | _ => (d, .error { message := "missing command", req := none, res := none })

/-- The body of the promise executor in `query` after `prepare` succeeded:
clear the idle timer, create and enqueue the query, and kick the send
loop. -/
def enqueue (d : Daemon) (req : MsgObj) (now : Nat) : Daemon × List Ev :=
  let d2 : Daemon := { d with idle_timer := false }
  let r := create_query d2 req d2.request_timeout now
  let d4 : Daemon := { r.1 with req_queue := r.1.req_queue ++ [r.2] }
  send_next d4

/-- `query(req)`: throw when terminated, prepare (throwing synchronously on
failure, with the state untouched), then enqueue and send. -/
def query (d : Daemon) (input : PrepareInput) (now : Nat) :
    Daemon × Except ErrInfo (List Ev) :=
  if d.terminated then
    (d, .error { message := "terminated", req := none, res := none })
  else
    match prepare d input with
    | (d1, .error e) => (d1, .error e)
    | (d1, .ok req) =>
        let r := enqueue d1 req now
        (r.1, .ok r.2)

/-- The argument of `cancel`: the original request object or its id value. -/
inductive CancelArg where
  | obj (m : MsgObj)
  | idv (v : JsVal)
deriving DecidableEq, Repr

/-- A JS return value of `cancel`: `undefined` or a boolean. -/
inductive JsRet where
  | undef
  | bool (b : Bool)
deriving DecidableEq, Repr

/-- `cancel(req, err)`: unwrap the request to its id, wrap the cause,
return `undefined` when no entry matches, otherwise reject the query,
re-evaluate the idle timer, and return the query's `sent` field (which is
the JS `undefined` when the query was never sent). -/
def cancel (d : Daemon) (arg : CancelArg) (errp : ErrParam) :
    Daemon × List Ev × JsRet :=
  let key : String :=
    match arg with
    | .obj m => reqId m
    | .idv v => jsToString v
  let err := wrap_error errp "user cancelled"
  match mapFind d.req_map key with
  | none => (d, [], .undef)
  | some q =>
    let r := reject_query d q err
    let d2 := schedule_idle r.1
    (d2, r.2, match q.sent with
              | none => .undef
              | some b => .bool b)

/-- A fresh `Daemon` under the constructor's default options. -/
def Daemon.init : Daemon :=
  { terminated := false, connected := false, disconnecting := false,
    sending := false, heartbeat_timer := false, reconnect_timer := false,
    connect_timer := false, idle_timer := false, ws := false,
    req_queue := [], req_map := [], req_id := List.replicate 32 0,
    connect_timeout := 30000, request_timeout := 10000,
    heartbeat_period := 30000, reconnect_cooldown := 5000,
    idle_timeout := -1, connect_time := 0 }

/-! ## Arithmetic of the request-identifier counter -/

theorem leNat_lt (v : List Nat) (hv : ∀ b ∈ v, b < 256) :
    leNat v < 256 ^ v.length := by
  induction v with
  | nil => simp [leNat]
  | cons x r ih =>
    have hx : x < 256 := hv x (List.mem_cons_self _ _)
    have hr : leNat r < 256 ^ r.length :=
      ih (fun b hb => hv b (List.mem_cons_of_mem _ hb))
    have hpow : (256 : ℕ) ^ (x :: r).length = 256 ^ r.length * 256 := by
      simp [pow_succ]
    simp only [leNat, hpow]
    omega

theorem advanceRev_length (v : List Nat) : (advanceRev v).length = v.length := by
  induction v with
  | nil => rfl
  | cons x r ih =>
    by_cases h : x < 0xFF <;> simp [advanceRev, h, ih]

theorem advanceRev_valid (v : List Nat) (hv : ∀ b ∈ v, b < 256) :
    ∀ b ∈ advanceRev v, b < 256 := by
  induction v with
  | nil => simp [advanceRev]
  | cons x r ih =>
    have hx : x < 256 := hv x (List.mem_cons_self _ _)
    have hr := fun b hb => hv b (List.mem_cons_of_mem _ hb)
    by_cases h : x < 0xFF
    · intro b hb
      simp only [advanceRev, if_pos h, List.mem_cons] at hb
      rcases hb with hb | hb
      · omega
      · exact hr b hb
    · intro b hb
      simp only [advanceRev, if_neg h, List.mem_cons] at hb
      rcases hb with hb | hb
      · omega
      · exact ih hr b hb

theorem advanceRev_leNat (v : List Nat) (hv : ∀ b ∈ v, b < 256) :
    leNat (advanceRev v) = (leNat v + 1) % 256 ^ v.length := by
  induction v with
  | nil => simp [advanceRev, leNat]
  | cons x r ih =>
    have hx : x < 256 := hv x (List.mem_cons_self _ _)
    have hr : leNat r < 256 ^ r.length :=
      leNat_lt r (fun b hb => hv b (List.mem_cons_of_mem _ hb))
    have hpow : (256 : ℕ) ^ (x :: r).length = 256 * 256 ^ r.length := by
      simp [pow_succ]; ring
    by_cases h : x < 0xFF
    · have hb : x + 1 + 256 * leNat r < 256 ^ (x :: r).length := by
        rw [hpow]; omega
      simp only [advanceRev, if_pos h, leNat]
      rw [Nat.mod_eq_of_lt (by omega : x + 256 * leNat r + 1 < 256 ^ (x :: r).length)]
      omega
    · have hx255 : x = 255 := by norm_num at h; omega
      have ihr := ih (fun b hb => hv b (List.mem_cons_of_mem _ hb))
      subst hx255
      simp only [advanceRev, if_neg h, leNat, ihr]
      have h1 : 255 + 256 * leNat r + 1 = 256 * (leNat r + 1) := by ring
      rw [h1, hpow, Nat.mul_mod_mul_left]
      ring

theorem advance_length (v : List Nat) : (advance v).length = v.length := by
  simp [advance, advanceRev_length]

theorem advance_valid (v : List Nat) (hv : bytesValid v) :
    bytesValid (advance v) := by
  intro b hb
  simp only [advance, List.mem_reverse] at hb
  exact advanceRev_valid v.reverse
    (fun c hc => hv c (List.mem_reverse.mp hc)) b hb

theorem advance_beNat (v : List Nat) (hv : bytesValid v) :
    beNat (advance v) = (beNat v + 1) % 256 ^ v.length := by
  unfold advance beNat
  rw [List.reverse_reverse,
      advanceRev_leNat v.reverse (fun c hc => hv c (List.mem_reverse.mp hc)),
      List.length_reverse]

theorem hexDigit_inj : ∀ a < 16, ∀ b < 16, hexDigit a = hexDigit b → a = b := by
  decide

theorem hexChars_inj (v1 : List Nat) : ∀ v2 : List Nat, bytesValid v1 →
    bytesValid v2 → v1.length = v2.length → hexChars v1 = hexChars v2 →
    v1 = v2 := by
  induction v1 with
  | nil =>
    intro v2 _ _ hlen _
    cases v2 with
    | nil => rfl
    | cons c s => simp at hlen
  | cons b r ih =>
    intro v2 h1 h2 hlen hchars
    cases v2 with
    | nil => simp at hlen
    | cons c s =>
      have hb : b < 256 := h1 b (List.mem_cons_self _ _)
      have hc : c < 256 := h2 c (List.mem_cons_self _ _)
      simp only [hexChars, List.cons.injEq] at hchars
      obtain ⟨hh, hl, ht⟩ := hchars
      have hdiv : b / 16 = c / 16 :=
        hexDigit_inj _ (by omega) _ (by omega) hh
      have hmod : b % 16 = c % 16 :=
        hexDigit_inj _ (by omega) _ (by omega) hl
      have hbc : b = c := by omega
      have hrs : r = s :=
        ih s (fun x hx => h1 x (List.mem_cons_of_mem _ hx))
          (fun x hx => h2 x (List.mem_cons_of_mem _ hx))
          (by simpa using hlen) ht
      rw [hbc, hrs]

theorem hexRender_inj (v1 v2 : List Nat) (h1 : bytesValid v1)
    (h2 : bytesValid v2) (hlen : v1.length = v2.length)
    (h : hexRender v1 = hexRender v2) : v1 = v2 := by
  apply hexChars_inj v1 v2 h1 h2 hlen
  simpa [hexRender] using congrArg String.data h

theorem pow256_32 : (256 : ℕ) ^ 32 = 2 ^ 256 := by norm_num

/-- C7: the request identifier is a fixed-width 256-bit big-endian counter:
`advance` computes v + 1 mod 2^256 on the 32-byte buffer; `prepare` advances
the counter and renders it as hex exactly when the request lacks a string
identifier; two requests prepared back-to-back receive strictly increasing
counter values and distinct hex identifiers before wraparound. -/
theorem c7_counter (v : List Nat) (hv : bytesValid v) (hlen : v.length = 32) :
    beNat (advance v) = (beNat v + 1) % 2 ^ 256
    ∧ (advance v).length = 32
    ∧ (beNat v + 2 < 2 ^ 256 →
        beNat (advance v) < beNat (advance (advance v))
        ∧ hexRender (advance v) ≠ hexRender (advance (advance v)))
    ∧ (∀ (d : Daemon) (m : MsgObj) (c dst : String),
        d.req_id = v → m.command = .vStr c → isStr m.destination = false →
        isStr m.request_id = false → CMD_DST c = some dst →
        (prepare d (.obj m)).1.req_id = advance v
        ∧ (prepare d (.obj m)).2 =
            .ok { m with destination := .vStr dst,
                         request_id := .vStr (hexRender (advance v)),
                         origin := .vStr "wallet_ui", ack := .vBool false }) := by
  refine ⟨?_, ?_, ?_, ?_⟩
  · rw [advance_beNat v hv, hlen, pow256_32]
  · rw [advance_length, hlen]
  · intro hlt
    have hv1 : bytesValid (advance v) := advance_valid v hv
    have hl1 : (advance v).length = 32 := by rw [advance_length, hlen]
    have e1 : beNat (advance v) = beNat v + 1 := by
      rw [advance_beNat v hv, hlen, pow256_32, Nat.mod_eq_of_lt (by omega)]
    have e2 : beNat (advance (advance v)) = beNat v + 2 := by
      rw [advance_beNat _ hv1, hl1, pow256_32, e1, Nat.mod_eq_of_lt (by omega)]
    constructor
    · omega
    · intro he
      have heq := hexRender_inj _ _ hv1 (advance_valid _ hv1)
        (by rw [hl1, advance_length, hl1]) he
      have := congrArg beNat heq
      omega
  · intro d m c dst hd hcmd hdst hrid hroute
    subst hd
    rcases m with ⟨mc, md, mr, mo, ma, mdat, mex⟩
    obtain rfl : mc = JsVal.vStr c := hcmd
    cases md <;> cases mr <;> simp [isStr] at hdst hrid <;>
      simp [prepare, prepare_id, hroute]

/-- The all-zero 32-byte counter, the constructor's initial `req_id`. -/
def v0 : List Nat := List.replicate 32 0

/-- Witness for `c7_counter` at the all-zero 32-byte counter. -/
theorem c7_counter_witness :
    bytesValid v0 ∧ v0.length = 32
    ∧ (beNat (advance v0) = (beNat v0 + 1) % 2 ^ 256
       ∧ (advance v0).length = 32
       ∧ (beNat v0 + 2 < 2 ^ 256 →
           beNat (advance v0) < beNat (advance (advance v0))
           ∧ hexRender (advance v0) ≠ hexRender (advance (advance v0)))
       ∧ (∀ (d : Daemon) (m : MsgObj) (c dst : String),
           d.req_id = v0 → m.command = .vStr c → isStr m.destination = false →
           isStr m.request_id = false → CMD_DST c = some dst →
           (prepare d (.obj m)).1.req_id = advance v0
           ∧ (prepare d (.obj m)).2 =
               .ok { m with destination := .vStr dst,
                            request_id := .vStr (hexRender (advance v0)),
                            origin := .vStr "wallet_ui", ack := .vBool false })) :=
  ⟨fun b hb => by rw [v0, List.mem_replicate] at hb; omega,
   by simp [v0],
   c7_counter v0 (fun b hb => by rw [v0, List.mem_replicate] at hb; omega)
     (by simp [v0])⟩

/-! ## Message preparation -/

/-- C9: a command with no routing-table entry and no caller-supplied
destination makes `prepare` — and therefore `query` — fail synchronously
with the unknown-destination error, and the send queue, the correlation map
and the request-identifier counter are all unchanged by the failed call. -/
theorem c9_unknown_command (d : Daemon) (m : MsgObj) (c : String) (now : Nat)
    (hterm : d.terminated = false)
    (hcmd : m.command = .vStr c)
    (hdst : isStr m.destination = false)
    (hroute : CMD_DST c = none) :
    prepare d (.obj m) =
      (d, .error { message := "unknown command destination: " ++ c,
                   req := none, res := none })
    ∧ query d (.obj m) now =
      (d, .error { message := "unknown command destination: " ++ c,
                   req := none, res := none })
    ∧ (prepare d (.obj m)).1.req_queue = d.req_queue
    ∧ (prepare d (.obj m)).1.req_map = d.req_map
    ∧ (prepare d (.obj m)).1.req_id = d.req_id := by
  have hp : prepare d (.obj m) =
      (d, .error { message := "unknown command destination: " ++ c,
                   req := none, res := none }) := by
    rcases m with ⟨mc, md, mr, mo, ma, mdat, mex⟩
    obtain rfl : mc = JsVal.vStr c := hcmd
    cases md <;> simp [isStr] at hdst <;> simp [prepare, hroute]
  refine ⟨hp, ?_, by rw [hp], by rw [hp], by rw [hp]⟩
  simp [query, hterm, hp]

/-- A bare unroutable request object, used by the `c9` witness. -/
def mUnknownCmd : MsgObj :=
  { command := .vStr "no_such_command", destination := .undef,
    request_id := .undef, origin := .undef, ack := .undef,
    data := .undef, extra := [] }

/-- Witness for `c9_unknown_command` on a fresh daemon and an unmapped
command. -/
theorem c9_unknown_command_witness :
    Daemon.init.terminated = false
    ∧ mUnknownCmd.command = .vStr "no_such_command"
    ∧ isStr mUnknownCmd.destination = false
    ∧ CMD_DST "no_such_command" = none
    ∧ prepare Daemon.init (.obj mUnknownCmd) =
      (Daemon.init,
       .error { message := "unknown command destination: " ++ "no_such_command",
                req := none, res := none }) :=
  ⟨rfl, rfl, rfl, by decide,
   (c9_unknown_command Daemon.init mUnknownCmd "no_such_command" 0 rfl rfl rfl
     (by decide)).1⟩

/-- C10: `prepare` on an object updates that object in place: origin and
the acknowledgment flag are overwritten unconditionally, destination and
request_id are filled only when they are not already strings, command,
data and every other field are left unchanged, and a bare command-name
string is first wrapped into a fresh object holding only that command. -/
theorem c10_prepare_in_place (d : Daemon) (m : MsgObj) (c : String)
    (hcmd : m.command = .vStr c) :
    (∀ d2 msg, prepare d (.obj m) = (d2, .ok msg) →
        msg.origin = .vStr "wallet_ui"
        ∧ msg.ack = .vBool false
        ∧ msg.command = m.command
        ∧ msg.data = m.data
        ∧ msg.extra = m.extra
        ∧ (isStr m.destination = true → msg.destination = m.destination)
        ∧ (isStr m.request_id = true →
            msg.request_id = m.request_id ∧ d2 = d)
        ∧ (isStr m.request_id = false →
            msg.request_id = .vStr (hexRender (advance d.req_id))
            ∧ d2.req_id = advance d.req_id))
    ∧ (∀ s, prepare d (.str s) =
        prepare d (.obj { command := .vStr s, destination := .undef,
                          request_id := .undef, origin := .undef,
                          ack := .undef, data := .undef, extra := [] })) := by
  constructor
  · intro d2 msg hp
    rcases m with ⟨mc, md, mr, mo, ma, mdat, mex⟩
    obtain rfl : mc = JsVal.vStr c := hcmd
    rcases hC : CMD_DST c with _ | dst <;>
      cases md <;> cases mr <;>
      simp [prepare, prepare_id, isStr, hC] at hp <;>
      obtain ⟨rfl, rfl⟩ := hp <;>
      simp [isStr]
  · intro s
    rfl

/-- A routable request object carrying caller-supplied origin, ack and data,
used by the `c10` witness. -/
def mGetStatus : MsgObj :=
  { command := .vStr "get_status", destination := .undef,
    request_id := .undef, origin := .vBool true, ack := .vBool true,
    data := .other, extra := [("k", .vNum 7)] }

/-- Witness for `c10_prepare_in_place` on a fresh daemon and a routable
command whose caller supplied origin and ack values to be overwritten. -/
theorem c10_prepare_in_place_witness :
    mGetStatus.command = .vStr "get_status"
    ∧ ((∀ d2 msg, prepare Daemon.init (.obj mGetStatus) = (d2, .ok msg) →
        msg.origin = .vStr "wallet_ui"
        ∧ msg.ack = .vBool false
        ∧ msg.command = mGetStatus.command
        ∧ msg.data = mGetStatus.data
        ∧ msg.extra = mGetStatus.extra
        ∧ (isStr mGetStatus.destination = true →
            msg.destination = mGetStatus.destination)
        ∧ (isStr mGetStatus.request_id = true →
            msg.request_id = mGetStatus.request_id ∧ d2 = Daemon.init)
        ∧ (isStr mGetStatus.request_id = false →
            msg.request_id = .vStr (hexRender (advance Daemon.init.req_id))
            ∧ d2.req_id = advance Daemon.init.req_id))
      ∧ (∀ s, prepare Daemon.init (.str s) =
          prepare Daemon.init
            (.obj { command := .vStr s, destination := .undef,
                    request_id := .undef, origin := .undef,
                    ack := .undef, data := .undef, extra := [] }))) :=
  ⟨rfl, c10_prepare_in_place Daemon.init mGetStatus "get_status" rfl⟩

/-! ## Inbound message handling -/

/-- C1 (amended): a parsed inbound frame whose request identifier matches no
outstanding query resolves no caller and leaves the daemon state, including
the correlation map, untouched; it is surfaced as unsolicited traffic only
while connected — never during the handshake window — labelled `'req'`-type
spam when the acknowledgment flag is set but unmatched and `'ack'`-type spam
when the acknowledgment flag is absent. -/
theorem c1_unsolicited (d : Daemon) (msg : Inbound) (now : Nat)
    (hfind : mapFind d.req_map msg.request_id = none) :
    (handle_message d (some msg) now).1 = d
    ∧ (handle_message d (some msg) now).2 =
        (if d.connected then
          [.spam (if msg.ack then "req" else "ack") msg] else [])
    ∧ (∀ req res t,
        Ev.fulfilled req res t ∉ (handle_message d (some msg) now).2)
    ∧ (∀ req e, Ev.rejected req e ∉ (handle_message d (some msg) now).2) := by
  cases hack : msg.ack <;>
    cases hconn : d.connected <;>
    simp [handle_message, hfind, hack, hconn]

/-- A connected daemon with an empty correlation map. -/
def dConn : Daemon := { Daemon.init with connected := true }

/-- An acknowledged frame matching nothing outstanding. -/
def msgUnmatched : Inbound :=
  { ack := true, request_id := "00", command := .undef, data := none,
    extra := [] }

/-- C1 counterexample: an acknowledged frame with no matching query is
surfaced by the source as `'req'`-type spam, not the `'ack'` label the claim
assigns to the set-but-unmatched case. -/
theorem c1_counterexample :
    (handle_message dConn (some msgUnmatched) 0).2 =
      [.spam "req" msgUnmatched]
    ∧ Ev.spam "ack" msgUnmatched ∉ (handle_message dConn (some msgUnmatched) 0).2
    ∧ "req" ≠ "ack" := by
  decide

/-- Witness for `c1_unsolicited` at a connected daemon, an empty map and an
unacknowledged frame. -/
theorem c1_unsolicited_witness :
    mapFind dConn.req_map "00" = none
    ∧ ((handle_message dConn
          (some { msgUnmatched with ack := false }) 0).1 = dConn
       ∧ (handle_message dConn (some { msgUnmatched with ack := false }) 0).2 =
          (if dConn.connected then
            [.spam (if ({ msgUnmatched with ack := false } : Inbound).ack
                    then "req" else "ack")
               { msgUnmatched with ack := false }] else [])
       ∧ (∀ req res t, Ev.fulfilled req res t ∉
            (handle_message dConn (some { msgUnmatched with ack := false }) 0).2)
       ∧ (∀ req e, Ev.rejected req e ∉
            (handle_message dConn (some { msgUnmatched with ack := false }) 0).2)) :=
  ⟨by decide, c1_unsolicited dConn { msgUnmatched with ack := false } 0 (by decide)⟩

/-- C5: an acknowledged frame matching an outstanding query removes that
query from the correlation map, cancels its request timer, reschedules the
idle timer, and fulfils the caller with the original request and the
response payload when the nested success flag is true; when the payload is
absent or its success flag false, the caller is rejected with an error
carrying both the original request and the full response. -/
theorem c5_matched_response (d : Daemon) (msg : Inbound) (q : Query) (now : Nat)
    (hack : msg.ack = true)
    (hfind : mapFind d.req_map msg.request_id = some q) :
    (handle_message d (some msg) now).1 =
      schedule_idle { d with req_map := mapErase d.req_map msg.request_id }
    ∧ (∀ dt, msg.data = some dt → dt.success = true →
        (handle_message d (some msg) now).2 =
          [.timerCleared q.req, .fulfilled q.req dt (now - q.t0)])
    ∧ ((msg.data = none ∨ ∃ dt, msg.data = some dt ∧ dt.success = false) →
        (handle_message d (some msg) now).2 =
          [.timerCleared q.req,
           .rejected q.req { message := jsToString q.req.command ++ " failed",
                             req := some q.req, res := some msg }]) := by
  refine ⟨?_, ?_, ?_⟩
  · rcases hdata : msg.data with _ | dt
    · simp [handle_message, hack, hfind, hdata]
    · cases hs : dt.success <;> simp [handle_message, hack, hfind, hdata, hs]
  · intro dt hdt hs
    simp [handle_message, hack, hfind, hdt, hs]
  · intro h
    rcases h with hnone | ⟨dt, hdt, hs⟩
    · simp [handle_message, hack, hfind, hnone]
    · simp [handle_message, hack, hfind, hdt, hs]

/-- A sent query outstanding under the key `"01"`. -/
def q1 : Query :=
  { req := { command := .vStr "get_status", destination := .vStr "daemon",
             request_id := .vStr "01", origin := .vStr "wallet_ui",
             ack := .vBool false, data := .undef, extra := [] },
    sent := some true, timer := true, t0 := 0 }

/-- A connected daemon with `q1` outstanding. -/
def dWith : Daemon :=
  { Daemon.init with connected := true, req_map := [("01", q1)] }

/-- A successful acknowledged response to `q1`. -/
def msgOk : Inbound :=
  { ack := true, request_id := "01", command := .undef,
    data := some { success := true, rest := [] }, extra := [] }

/-- Witness for `c5_matched_response` at a concrete matched response. -/
theorem c5_matched_response_witness :
    msgOk.ack = true
    ∧ mapFind dWith.req_map msgOk.request_id = some q1
    ∧ ((handle_message dWith (some msgOk) 7).1 =
        schedule_idle { dWith with req_map := mapErase dWith.req_map msgOk.request_id }
       ∧ (∀ dt, msgOk.data = some dt → dt.success = true →
           (handle_message dWith (some msgOk) 7).2 =
             [.timerCleared q1.req, .fulfilled q1.req dt (7 - q1.t0)])
       ∧ ((msgOk.data = none ∨ ∃ dt, msgOk.data = some dt ∧ dt.success = false) →
           (handle_message dWith (some msgOk) 7).2 =
             [.timerCleared q1.req,
              .rejected q1.req { message := jsToString q1.req.command ++ " failed",
                                 req := some q1.req, res := some msgOk }])) :=
  ⟨rfl, by decide, c5_matched_response dWith msgOk q1 7 rfl (by decide)⟩

/-! ## Cancellation -/

/-- A queued query under the key `"aa"` whose `sent` field was never
assigned. -/
def qUnsent : Query :=
  { req := { command := .vStr "get_status", destination := .vStr "daemon",
             request_id := .vStr "aa", origin := .vStr "wallet_ui",
             ack := .vBool false, data := .undef, extra := [] },
    sent := none, timer := true, t0 := 0 }

/-- A daemon holding `qUnsent` queued and in the correlation map. -/
def dUnsent : Daemon :=
  { Daemon.init with req_queue := [qUnsent], req_map := [("aa", qUnsent)] }

/-- C6 (code bug): cancelling a known but never-sent request does remove it
from the queue and the map and rejects it with the wrapped cause, but the
call returns the JS `undefined` — `query.sent` is never initialised to
`false` — which is exactly the unknown-request indicator, contrary to the
claim and to the source's own doc comment, which reserves `undefined` for
the case where no matching entry exists. -/
theorem c6_cancel_unsent_returns_undefined :
    (cancel dUnsent (.idv (.vStr "aa")) .other).2.2 = JsRet.undef
    ∧ (cancel dUnsent (.idv (.vStr "aa")) .other).1.req_queue = []
    ∧ (cancel dUnsent (.idv (.vStr "aa")) .other).1.req_map = []
    ∧ Ev.rejected qUnsent.req
        { message := "user cancelled", req := some qUnsent.req, res := none }
        ∈ (cancel dUnsent (.idv (.vStr "aa")) .other).2.1
    ∧ (cancel Daemon.init (.idv (.vStr "aa")) .other).2.2 = JsRet.undef := by
  decide

/-! ## Teardown: properties of the rejection loop -/

theorem mapFind_mapErase_self (m : List (String × Query)) (k : String) :
    mapFind (mapErase m k) k = none := by
  induction m with
  | nil => rfl
  | cons p r ih =>
    by_cases h : p.1 = k <;> simp [mapErase, mapFind, h] at ih ⊢ <;>
      simpa [mapErase] using ih

theorem mapErase_absent (m : List (String × Query)) (k s : String)
    (h : mapFind m s = none) : mapFind (mapErase m k) s = none := by
  induction m with
  | nil => rfl
  | cons p r ih =>
    by_cases hp : p.1 = s
    · simp [mapFind, hp] at h
    · by_cases hk : p.1 = k <;>
        simp only [mapFind, if_neg hp] at h <;>
        simp [mapErase, mapFind, hk, hp, ih h] <;>
        simpa [mapErase] using ih h

theorem mapErase_keeps (m : List (String × Query)) (k : String)
    (p : String × Query) (hp : p ∈ m) (hne : p.1 ≠ k) :
    p ∈ mapErase m k := by
  simp only [mapErase, List.mem_filter]
  exact ⟨hp, by simpa using hne⟩

theorem eraseFirstQ_keeps (l : List Query) (k : String) (q : Query)
    (hq : q ∈ l) (hne : reqId q.req ≠ k) : q ∈ eraseFirstQ l k := by
  induction l with
  | nil => simp at hq
  | cons x r ih =>
    rcases List.mem_cons.mp hq with rfl | hq'
    · simp [eraseFirstQ, if_neg hne]
    · by_cases hx : reqId x.req = k
      · simpa [eraseFirstQ, hx] using hq'
      · simp [eraseFirstQ, hx, List.mem_cons]
        right
        exact ih hq'

theorem nodup_keys_eq (m : List (String × Query))
    (hnd : (m.map Prod.fst).Nodup) (k : String) (a b : Query)
    (ha : (k, a) ∈ m) (hb : (k, b) ∈ m) : a = b := by
  induction m with
  | nil => simp at ha
  | cons p r ih =>
    simp only [List.map_cons, List.nodup_cons] at hnd
    rcases List.mem_cons.mp ha with rfl | ha' <;>
      rcases List.mem_cons.mp hb with hb' | hb'
    · cases hb'
      rfl
    · exact absurd (List.mem_map_of_mem Prod.fst hb') (by simpa using hnd.1)
    · cases hb'
      exact absurd (List.mem_map_of_mem Prod.fst ha') (by simpa using hnd.1)
    · exact ih hnd.2 ha' hb'

theorem reject_loop_fields (err : ErrInfo) (entries : List (String × Query)) :
    ∀ d : Daemon,
      (reject_loop d entries err).1.terminated = d.terminated
      ∧ (reject_loop d entries err).1.connected = d.connected
      ∧ (reject_loop d entries err).1.disconnecting = d.disconnecting
      ∧ (reject_loop d entries err).1.sending = d.sending
      ∧ (reject_loop d entries err).1.ws = d.ws
      ∧ (reject_loop d entries err).1.reconnect_timer = d.reconnect_timer
      ∧ (reject_loop d entries err).1.idle_timer = d.idle_timer
      ∧ (reject_loop d entries err).1.connect_timer = d.connect_timer
      ∧ (reject_loop d entries err).1.heartbeat_timer = d.heartbeat_timer
      ∧ (reject_loop d entries err).1.reconnect_cooldown = d.reconnect_cooldown
      ∧ (reject_loop d entries err).1.idle_timeout = d.idle_timeout
      ∧ (reject_loop d entries err).1.connect_time = d.connect_time
      ∧ (reject_loop d entries err).1.req_id = d.req_id := by
  induction entries with
  | nil => intro d; simp [reject_loop]
  | cons p rest ih =>
    intro d
    simp only [reject_loop]
    split
    · simpa [reject_query] using ih (reject_query d p.2 err).1
    · exact ih d

theorem reject_loop_rejects (err : ErrInfo)
    (entries : List (String × Query)) :
    ∀ (d : Daemon) (k : String) (q : Query),
    (k, q) ∈ entries →
    (d.terminated = true ∨ d.reconnect_cooldown < 0 ∨ truthyOpt q.sent = true) →
    Ev.rejected q.req { err with req := some q.req }
      ∈ (reject_loop d entries err).2 := by
  induction entries with
  | nil => intro d k q hmem; simp at hmem
  | cons p rest ih =>
    intro d k q hmem hcond
    rcases List.mem_cons.mp hmem with heq | hmem'
    · have hp2 : p.2 = q := by rw [← heq]
      simp only [reject_loop, hp2, if_pos hcond]
      simp [reject_query, hp2]
    · by_cases hc :
        d.terminated = true ∨ d.reconnect_cooldown < 0 ∨ truthyOpt p.2.sent = true
      · simp only [reject_loop, if_pos hc, List.mem_append]
        right
        exact ih (reject_query d p.2 err).1 k q hmem' (by simpa [reject_query] using hcond)
      · simp only [reject_loop, if_neg hc]
        exact ih d k q hmem' hcond

theorem reject_loop_rejected_src (err : ErrInfo)
    (entries : List (String × Query)) :
    ∀ (d : Daemon) (r : MsgObj) (e : ErrInfo),
    Ev.rejected r e ∈ (reject_loop d entries err).2 →
    ∃ p, p ∈ entries ∧ p.2.req = r
      ∧ (d.terminated = true ∨ d.reconnect_cooldown < 0
         ∨ truthyOpt p.2.sent = true) := by
  induction entries with
  | nil => intro d r e hmem; simp [reject_loop] at hmem
  | cons p rest ih =>
    intro d r e hmem
    by_cases hc :
      d.terminated = true ∨ d.reconnect_cooldown < 0 ∨ truthyOpt p.2.sent = true
    · simp only [reject_loop, if_pos hc, List.mem_append] at hmem
      rcases hmem with hin | hin
      · simp [reject_query] at hin
        obtain ⟨hr, _⟩ := hin
        exact ⟨p, List.mem_cons_self _ _, hr.symm, hc⟩
      · obtain ⟨p', hp', hr', hc'⟩ :=
          ih (reject_query d p.2 err).1 r e hin
        exact ⟨p', List.mem_cons_of_mem _ hp', hr',
          by simpa [reject_query] using hc'⟩
    · simp only [reject_loop, if_neg hc] at hmem
      obtain ⟨p', hp', hr', hc'⟩ := ih d r e hmem
      exact ⟨p', List.mem_cons_of_mem _ hp', hr', hc'⟩

theorem reject_loop_absent (err : ErrInfo)
    (entries : List (String × Query)) :
    ∀ (d : Daemon) (s : String), mapFind d.req_map s = none →
    mapFind (reject_loop d entries err).1.req_map s = none := by
  induction entries with
  | nil => intro d s h; simpa [reject_loop] using h
  | cons p rest ih =>
    intro d s h
    simp only [reject_loop]
    split
    · exact ih (reject_query d p.2 err).1 s
        (by simpa [reject_query] using mapErase_absent _ _ _ h)
    · exact ih d s h

theorem reject_loop_erases (err : ErrInfo)
    (entries : List (String × Query)) :
    ∀ (d : Daemon) (k : String) (q : Query),
    (k, q) ∈ entries →
    (d.terminated = true ∨ d.reconnect_cooldown < 0 ∨ truthyOpt q.sent = true) →
    mapFind (reject_loop d entries err).1.req_map (reqId q.req) = none := by
  induction entries with
  | nil => intro d k q hmem; simp at hmem
  | cons p rest ih =>
    intro d k q hmem hcond
    rcases List.mem_cons.mp hmem with heq | hmem'
    · have hp2 : p.2 = q := by rw [← heq]
      simp only [reject_loop, hp2, if_pos hcond]
      exact reject_loop_absent err rest _ _
        (by simpa [reject_query, hp2] using mapFind_mapErase_self d.req_map (reqId q.req))
    · by_cases hc :
        d.terminated = true ∨ d.reconnect_cooldown < 0 ∨ truthyOpt p.2.sent = true
      · simp only [reject_loop, if_pos hc]
        exact ih (reject_query d p.2 err).1 k q hmem'
          (by simpa [reject_query] using hcond)
      · simp only [reject_loop, if_neg hc]
        exact ih d k q hmem' hcond

theorem reject_loop_keeps (err : ErrInfo)
    (entries : List (String × Query)) :
    ∀ (d : Daemon) (k : String) (q : Query),
    (k, q) ∈ d.req_map →
    (∀ p ∈ entries,
      (d.terminated = true ∨ d.reconnect_cooldown < 0
       ∨ truthyOpt p.2.sent = true) → reqId p.2.req ≠ k) →
    (k, q) ∈ (reject_loop d entries err).1.req_map := by
  induction entries with
  | nil => intro d k q hmem _; simpa [reject_loop] using hmem
  | cons p rest ih =>
    intro d k q hmem hsafe
    by_cases hc :
      d.terminated = true ∨ d.reconnect_cooldown < 0 ∨ truthyOpt p.2.sent = true
    · simp only [reject_loop, if_pos hc]
      have hne : reqId p.2.req ≠ k := hsafe p (List.mem_cons_self _ _) hc
      refine ih (reject_query d p.2 err).1 k q ?_ ?_
      · exact mapErase_keeps d.req_map (reqId p.2.req) (k, q) hmem
          (fun h => hne h.symm)
      · intro p' hp' hc'
        exact hsafe p' (List.mem_cons_of_mem _ hp')
          (by simpa [reject_query] using hc')
    · simp only [reject_loop, if_neg hc]
      exact ih d k q hmem (fun p' hp' hc' =>
        hsafe p' (List.mem_cons_of_mem _ hp') hc')

theorem reject_loop_keeps_queue (err : ErrInfo)
    (entries : List (String × Query)) :
    ∀ (d : Daemon) (q : Query),
    q ∈ d.req_queue →
    (∀ p ∈ entries,
      (d.terminated = true ∨ d.reconnect_cooldown < 0
       ∨ truthyOpt p.2.sent = true) → reqId p.2.req ≠ reqId q.req) →
    q ∈ (reject_loop d entries err).1.req_queue := by
  induction entries with
  | nil => intro d q hmem _; simpa [reject_loop] using hmem
  | cons p rest ih =>
    intro d q hmem hsafe
    by_cases hc :
      d.terminated = true ∨ d.reconnect_cooldown < 0 ∨ truthyOpt p.2.sent = true
    · simp only [reject_loop, if_pos hc]
      have hne : reqId p.2.req ≠ reqId q.req :=
        hsafe p (List.mem_cons_self _ _) hc
      refine ih (reject_query d p.2 err).1 q ?_ ?_
      · exact eraseFirstQ_keeps d.req_queue (reqId p.2.req) q hmem
          (fun h => hne h.symm)
      · intro p' hp' hc'
        exact hsafe p' (List.mem_cons_of_mem _ hp')
          (by simpa [reject_query] using hc')
    · simp only [reject_loop, if_neg hc]
      exact ih d q hmem (fun p' hp' hc' =>
        hsafe p' (List.mem_cons_of_mem _ hp') hc')

theorem disconnect_parts (d : Daemon) (errp : ErrParam) (idle : Bool)
    (now : Nat) (hws : d.ws = true) (hdis : d.disconnecting = false) :
    (disconnect d errp idle now).1.req_map =
      (reject_loop (tornDown d) d.req_map
        (wrap_error errp "user disconnect")).1.req_map
    ∧ (disconnect d errp idle now).1.req_queue =
      (reject_loop (tornDown d) d.req_map
        (wrap_error errp "user disconnect")).1.req_queue
    ∧ (∀ r e, Ev.rejected r e ∈ (disconnect d errp idle now).2 ↔
        Ev.rejected r e ∈ (reject_loop (tornDown d) d.req_map
          (wrap_error errp "user disconnect")).2) := by
  have g1 : ¬ (d.ws = false) := by rw [hws]; simp
  have g2 : ¬ (d.disconnecting = true) := by rw [hdis]; simp
  simp only [disconnect, if_neg g1, if_neg g2]
  refine ⟨?_, ?_, ?_⟩
  · split <;> rfl
  · split <;> rfl
  · intro r e
    split <;> split <;> simp [List.mem_append] <;> exact Iff.rfl

/-- C2: on every actual teardown, a query in the correlation map is rejected
with the teardown error exactly when the system is terminated, reconnection
is disabled, or that query was already flushed to the transport; in that
case it is removed from the map, and otherwise it survives the teardown in
the map (and in the queue, if queued) and is the next request written once a
connection is available again. -/
theorem c2_teardown (d : Daemon) (errp : ErrParam) (idle : Bool) (now : Nat)
    (k : String) (q : Query)
    (hws : d.ws = true) (hdis : d.disconnecting = false)
    (hmem : (k, q) ∈ d.req_map)
    (hkeys : ∀ p ∈ d.req_map, p.1 = reqId p.2.req)
    (hnodup : (d.req_map.map Prod.fst).Nodup) :
    (Ev.rejected q.req
        { wrap_error errp "user disconnect" with req := some q.req }
        ∈ (disconnect d errp idle now).2
      ↔ (d.terminated = true ∨ d.reconnect_cooldown < 0
         ∨ truthyOpt q.sent = true))
    ∧ ((d.terminated = true ∨ d.reconnect_cooldown < 0
        ∨ truthyOpt q.sent = true) →
        mapFind (disconnect d errp idle now).1.req_map k = none)
    ∧ (¬(d.terminated = true ∨ d.reconnect_cooldown < 0
         ∨ truthyOpt q.sent = true) →
        (k, q) ∈ (disconnect d errp idle now).1.req_map
        ∧ (q ∈ d.req_queue → q ∈ (disconnect d errp idle now).1.req_queue))
    ∧ (∀ (d2 : Daemon) (qq : Query) (rest : List Query),
        d2.req_queue = qq :: rest → d2.connected = true →
        d2.sending = false → (send_next d2).2 = [Ev.wrote qq.req]) := by
  obtain ⟨hmap, hqueue, hevs⟩ := disconnect_parts d errp idle now hws hdis
  have hk : k = reqId q.req := hkeys (k, q) hmem
  refine ⟨⟨?_, ?_⟩, ?_, ?_, ?_⟩
  · intro hin
    obtain ⟨p, hp, hreq, hcond⟩ :=
      reject_loop_rejected_src (wrap_error errp "user disconnect") d.req_map
        (tornDown d) q.req { wrap_error errp "user disconnect" with req := some q.req }
        ((hevs _ _).mp hin)
    have hp1 : p.1 = k := by rw [hkeys p hp, hreq, ← hk]
    have hpmem : (k, p.2) ∈ d.req_map := by
      rw [← hp1]
      simpa using hp
    have hq2 : p.2 = q := nodup_keys_eq d.req_map hnodup k p.2 q hpmem hmem
    rw [hq2] at hcond
    exact hcond
  · intro hcond
    rw [hevs _ _]
    exact reject_loop_rejects (wrap_error errp "user disconnect") d.req_map
      (tornDown d) k q hmem hcond
  · intro hcond
    rw [hmap, hk]
    exact reject_loop_erases (wrap_error errp "user disconnect") d.req_map
      (tornDown d) k q hmem hcond
  · intro hcond
    constructor
    · rw [hmap]
      refine reject_loop_keeps (wrap_error errp "user disconnect") d.req_map
        (tornDown d) k q hmem ?_
      intro p hp hc hkey
      have hp1 : p.1 = k := by rw [hkeys p hp, hkey]
      have hpmem : (k, p.2) ∈ d.req_map := by
        rw [← hp1]
        simpa using hp
      have hq2 : p.2 = q := nodup_keys_eq d.req_map hnodup k p.2 q hpmem hmem
      rw [hq2] at hc
      exact hcond hc
    · intro hqq
      rw [hqueue]
      refine reject_loop_keeps_queue (wrap_error errp "user disconnect")
        d.req_map (tornDown d) q hqq ?_
      intro p hp hc hkey
      have hp1 : p.1 = k := by rw [hkeys p hp, hkey, ← hk]
      have hpmem : (k, p.2) ∈ d.req_map := by
        rw [← hp1]
        simpa using hp
      have hq2 : p.2 = q := nodup_keys_eq d.req_map hnodup k p.2 q hpmem hmem
      rw [hq2] at hc
      exact hcond hc
  · intro d2 qq rest hq hc hs
    simp [send_next, hq, hc, hs]

/-- A live connected daemon with the flushed query `q1` outstanding, used by
the teardown witnesses. -/
def dTear : Daemon :=
  { Daemon.init with
      ws := true, connected := true, connect_time := 100,
      req_map := [("01", q1)] }

/-- Witness for `c2_teardown`: tearing down `dTear` rejects the flushed
query `q1`. -/
theorem c2_teardown_witness :
    dTear.ws = true
    ∧ dTear.disconnecting = false
    ∧ ("01", q1) ∈ dTear.req_map
    ∧ (∀ p ∈ dTear.req_map, p.1 = reqId p.2.req)
    ∧ (dTear.req_map.map Prod.fst).Nodup
    ∧ (Ev.rejected q1.req
        { wrap_error .other "user disconnect" with req := some q1.req }
        ∈ (disconnect dTear .other false 5).2
      ↔ (dTear.terminated = true ∨ dTear.reconnect_cooldown < 0
         ∨ truthyOpt q1.sent = true)) :=
  ⟨rfl, rfl, by decide, by decide, by decide,
   (c2_teardown dTear .other false 5 "01" q1 rfl rfl (by decide) (by decide)
     (by decide)).1⟩

/-- The `terminated` error `shutdown` tears down with. -/
def errTerminated : ErrInfo :=
  { message := "terminated", req := none, res := none }

theorem shutdown_expand (d : Daemon) (now : Nat)
    (hterm : d.terminated = false) (hws : d.ws = true)
    (hdis : d.disconnecting = false) :
    shutdown d now =
      (let dT : Daemon := { d with terminated := true, reconnect_timer := false }
       let r := reject_loop (tornDown dT) (tornDown dT).req_map errTerminated
       ({ r.1 with disconnecting := false },
        r.2 ++
          (if d.connected = true then
            [.debug ("Disconnected: " ++ errTerminated.message),
             .closedConn errTerminated]
          else
            [.debug ("Connect Error: " ++ errTerminated.message),
             .connectError errTerminated]))) := by
  have g0 : ¬ (d.terminated = true) := by rw [hterm]; simp
  have g1 : ¬ (d.ws = false) := by rw [hws]; simp
  have g2 : ¬ (d.disconnecting = true) := by rw [hdis]; simp
  simp only [shutdown, disconnect, errTerminated, wrap_error,
    if_neg g0, if_neg g1, if_neg g2]
  simp

/-- C3: the first `shutdown` call cancels any pending reconnect-cooldown
timer, forces teardown with the `terminated` error (emitting `close` when a
handshake had completed and `connect-error` otherwise), rejects every
request already flushed to the transport with the termination error
regardless of reconnection policy, and permanently blocks the future:
`query` fails immediately with `terminated`, `connect` is a no-op, and a
second `shutdown` has no observable effect. -/
theorem c3_shutdown (d : Daemon) (now : Nat)
    (hterm : d.terminated = false) (hws : d.ws = true)
    (hdis : d.disconnecting = false) :
    (shutdown d now).1.terminated = true
    ∧ (shutdown d now).1.reconnect_timer = false
    ∧ (shutdown d now).1.ws = false
    ∧ (shutdown d now).1.connected = false
    ∧ (d.connected = true → Ev.closedConn errTerminated ∈ (shutdown d now).2)
    ∧ (d.connected = false →
        Ev.connectError errTerminated ∈ (shutdown d now).2)
    ∧ (∀ k q, (k, q) ∈ d.req_map → truthyOpt q.sent = true →
        Ev.rejected q.req { errTerminated with req := some q.req }
          ∈ (shutdown d now).2)
    ∧ (∀ input now2, query (shutdown d now).1 input now2 =
        ((shutdown d now).1, .error errTerminated))
    ∧ connect (shutdown d now).1 = ((shutdown d now).1, [])
    ∧ shutdown (shutdown d now).1 now = ((shutdown d now).1, []) := by
  have hx := shutdown_expand d now hterm hws hdis
  obtain ⟨hf1, hf2, hf3, hf4, hf5, hf6, hf7, hf8, hf9, hf10, hf11, hf12, hf13⟩ :=
    reject_loop_fields errTerminated
      (tornDown { d with terminated := true, reconnect_timer := false }).req_map
      (tornDown { d with terminated := true, reconnect_timer := false })
  have h1 : (shutdown d now).1.terminated = true := by rw [hx]; exact hf1
  refine ⟨h1, ?_, ?_, ?_, ?_, ?_, ?_, ?_, ?_, ?_⟩
  · rw [hx]
    exact hf6
  · rw [hx]
    exact hf5
  · rw [hx]
    exact hf2
  · intro hc
    rw [hx]
    simp [hc]
  · intro hc
    rw [hx]
    simp [hc]
  · intro k q hmem hsent
    rw [hx]
    exact List.mem_append_left _
      (reject_loop_rejects errTerminated
        (tornDown { d with terminated := true, reconnect_timer := false }).req_map
        (tornDown { d with terminated := true, reconnect_timer := false })
        k q hmem (Or.inr (Or.inr hsent)))
  · intro input now2
    simp [query, h1, errTerminated]
  · simp [connect, h1]
  · have hgen : ∀ X : Daemon, X.terminated = true → shutdown X now = (X, []) :=
      fun X hX => by simp [shutdown, hX]
    exact hgen _ h1

/-- Witness for `c3_shutdown` at the live daemon `dTear`. -/
theorem c3_shutdown_witness :
    dTear.terminated = false
    ∧ dTear.ws = true
    ∧ dTear.disconnecting = false
    ∧ (shutdown dTear 5).1.terminated = true :=
  ⟨rfl, rfl, rfl, (c3_shutdown dTear 5 rfl rfl rfl).1⟩

theorem disconnect_sched (d : Daemon) (errp : ErrParam) (now : Nat)
    (hws : d.ws = true) (hdis : d.disconnecting = false)
    (hconn : d.connected = true) (hC : 0 ≤ d.reconnect_cooldown) :
    (disconnect d errp false now).1.reconnect_timer = true
    ∧ Ev.scheduledReconnect
        (d.reconnect_cooldown -
          min d.reconnect_cooldown ((now : Int) - (d.connect_time : Int)))
        ∈ (disconnect d errp false now).2 := by
  have g1 : ¬ (d.ws = false) := by rw [hws]; simp
  have g2 : ¬ (d.disconnecting = true) := by rw [hdis]; simp
  obtain ⟨_, _, _, _, _, _, _, _, _, hrc, _, hct, _⟩ :=
    reject_loop_fields (wrap_error errp "user disconnect")
      (tornDown d).req_map (tornDown d)
  have t1 : (tornDown d).reconnect_cooldown = d.reconnect_cooldown := rfl
  have t2 : (tornDown d).connect_time = d.connect_time := rfl
  refine ⟨?_, ?_⟩ <;>
    simp [disconnect, if_neg g1, if_neg g2, hconn, hrc, hct, t1, t2, hC,
      List.mem_append]

/-- C8: with cooldown C ≥ 0, tearing down a connection whose handshake had
completed schedules the reconnect timer for C − min(C, D), D being the
connected duration — hence exactly C − D when D < C — and when the
cooldown timer fires, the reconnect is skipped whenever the idle policy is
active and the system is currently idle. -/
theorem c8_reconnect_cooldown (d : Daemon) (errp : ErrParam) (now : Nat)
    (hws : d.ws = true) (hdis : d.disconnecting = false)
    (hconn : d.connected = true) (hC : 0 ≤ d.reconnect_cooldown) :
    (disconnect d errp false now).1.reconnect_timer = true
    ∧ Ev.scheduledReconnect
        (d.reconnect_cooldown -
          min d.reconnect_cooldown ((now : Int) - (d.connect_time : Int)))
        ∈ (disconnect d errp false now).2
    ∧ ((now : Int) - (d.connect_time : Int) < d.reconnect_cooldown →
        Ev.scheduledReconnect
          (d.reconnect_cooldown - ((now : Int) - (d.connect_time : Int)))
          ∈ (disconnect d errp false now).2)
    ∧ (∀ d2 : Daemon, 0 ≤ d2.idle_timeout → is_idle d2 = true →
        reconnect_fire d2 =
          ({ d2 with reconnect_timer := false },
           [.debug "Reconnect avoided while idle"])) := by
  obtain ⟨h1, h2⟩ := disconnect_sched d errp now hws hdis hconn hC
  refine ⟨h1, h2, ?_, ?_⟩
  · intro hlt
    rw [min_eq_right (le_of_lt hlt)] at h2
    exact h2
  · intro d2 hidle hIs
    have hIs2 : is_idle { d2 with reconnect_timer := false } = true := hIs
    have hidle2 : 0 ≤ ({ d2 with reconnect_timer := false } : Daemon).idle_timeout :=
      hidle
    simp [reconnect_fire, hIs2, hidle2]

/-- Witness for `c8_reconnect_cooldown` at the live daemon `dTear`
(cooldown 5000, connected at 100, torn down at 1100). -/
theorem c8_reconnect_cooldown_witness :
    dTear.ws = true
    ∧ dTear.disconnecting = false
    ∧ dTear.connected = true
    ∧ 0 ≤ dTear.reconnect_cooldown
    ∧ (disconnect dTear .other false 1100).1.reconnect_timer = true :=
  ⟨rfl, rfl, rfl, by decide,
   (c8_reconnect_cooldown dTear .other 1100 rfl rfl rfl (by decide)).1⟩

/-! ## Send discipline -/

/-- Ghost-instrumented system for the send-ordering argument: the daemon
state plus the trace of requests submitted via the `query` path, the trace
of requests written to the transport, and the count of writes the transport
has confirmed. -/
structure Sys where
  d : Daemon
  submitted : List MsgObj
  written : List MsgObj
  confirmed : Nat
deriving DecidableEq, Repr

/-- The transport writes among a list of effects, in order. -/
def writesOf (evs : List Ev) : List MsgObj :=
  evs.filterMap fun e =>
    match e with
    | .wrote m => some m
    | _ => none

/-- The requests held in the send queue, in order. -/
def queueReqs (d : Daemon) : List MsgObj := d.req_queue.map fun q => q.req

theorem send_next_spec (d : Daemon) :
    queueReqs d = writesOf (send_next d).2 ++ queueReqs (send_next d).1
    ∧ (send_next d).1.connected = d.connected
    ∧ (writesOf (send_next d).2).length
        + (if d.sending = true then 1 else 0)
        = (if (send_next d).1.sending = true then 1 else 0)
    ∧ (d.connected = false → writesOf (send_next d).2 = []) := by
  rcases hq : d.req_queue with _ | ⟨q, rest⟩
  · simp [send_next, hq, queueReqs, writesOf]
  · by_cases hc : d.connected = true
    · by_cases hs : d.sending = true
      · simp [send_next, hq, hc, hs, queueReqs, writesOf]
      · simp [send_next, hq, hc, hs, queueReqs, writesOf]
    · simp only [send_next, hq, hc, connect]
      split_ifs <;> simp [queueReqs, writesOf, hq] <;>
        simp_all

theorem enqueue_spec (d : Daemon) (req : MsgObj) (now : Nat) :
    queueReqs d ++ [req]
      = writesOf (enqueue d req now).2 ++ queueReqs (enqueue d req now).1
    ∧ (enqueue d req now).1.connected = d.connected
    ∧ (writesOf (enqueue d req now).2).length
        + (if d.sending = true then 1 else 0)
        = (if (enqueue d req now).1.sending = true then 1 else 0)
    ∧ (d.connected = false → writesOf (enqueue d req now).2 = []) := by
  obtain ⟨e1, e2, e3, e4⟩ := send_next_spec
    { d with idle_timer := false,
             req_map := mapInsert d.req_map (reqId req)
               { req := req, sent := none,
                 timer := decide (0 < d.request_timeout), t0 := now },
             req_queue := d.req_queue ++
               [{ req := req, sent := none,
                  timer := decide (0 < d.request_timeout), t0 := now }] }
  have hqr :
      queueReqs
        { d with idle_timer := false,
                 req_map := mapInsert d.req_map (reqId req)
                   { req := req, sent := none,
                     timer := decide (0 < d.request_timeout), t0 := now },
                 req_queue := d.req_queue ++
                   [{ req := req, sent := none,
                      timer := decide (0 < d.request_timeout), t0 := now }] }
        = queueReqs d ++ [req] := by
    simp [queueReqs]
  rw [hqr] at e1
  exact ⟨e1, e2, e3, e4⟩

theorem on_open_spec (d : Daemon) (now : Nat) :
    queueReqs d
      = writesOf (on_open_complete d now).2
        ++ queueReqs (on_open_complete d now).1
    ∧ (on_open_complete d now).1.connected = true
    ∧ (writesOf (on_open_complete d now).2).length
        = (if (on_open_complete d now).1.sending = true then 1 else 0) := by
  by_cases hidle : d.idle_timeout < 0
  · obtain ⟨e1, e2, e3, e4⟩ := send_next_spec
      (schedule_idle (schedule_heartbeat
        { d with connect_timer := false, connected := true,
                 connect_time := now, sending := false }))
    have hx : on_open_complete d now =
        ((send_next (schedule_idle (schedule_heartbeat
          { d with connect_timer := false, connected := true,
                   connect_time := now, sending := false }))).1,
         [.debug "Connected", .openedConn]
           ++ (send_next (schedule_idle (schedule_heartbeat
             { d with connect_timer := false, connected := true,
                      connect_time := now, sending := false }))).2) := by
      simp [on_open_complete, hidle]
    rw [hx]
    refine ⟨?_, ?_, ?_⟩
    · simpa [writesOf, queueReqs, schedule_idle, schedule_heartbeat] using e1
    · simpa [schedule_idle, schedule_heartbeat] using e2
    · simpa [writesOf, schedule_idle, schedule_heartbeat] using e3
  · obtain ⟨e1, e2, e3, e4⟩ := send_next_spec
      (schedule_idle
        { d with connect_timer := false, connected := true,
                 connect_time := now, sending := false })
    have hx : on_open_complete d now =
        ((send_next (schedule_idle
          { d with connect_timer := false, connected := true,
                   connect_time := now, sending := false })).1,
         [.debug "Connected", .openedConn]
           ++ (send_next (schedule_idle
             { d with connect_timer := false, connected := true,
                      connect_time := now, sending := false })).2) := by
      simp [on_open_complete, hidle]
    rw [hx]
    refine ⟨?_, ?_, ?_⟩
    · simpa [writesOf, queueReqs, schedule_idle] using e1
    · simpa [schedule_idle] using e2
    · simpa [writesOf, schedule_idle] using e3

/-- Environment steps driving the send discipline: a request submitted via
the `query` path, the transport confirming the one outstanding write, and
the completion of a handshake on a daemon that was not connected.  Each
step extends the ghost traces with the step's observable writes. -/
inductive SysStep : Sys → Sys → Prop where
  | enq (s : Sys) (req : MsgObj) (now : Nat) :
      SysStep s
        { d := (enqueue s.d req now).1,
          submitted := s.submitted ++ [req],
          written := s.written ++ writesOf (enqueue s.d req now).2,
          confirmed := s.confirmed }
  | confirm (s : Sys) :
      s.d.sending = true →
      SysStep s
        { d := (write_confirm s.d).1,
          submitted := s.submitted,
          written := s.written ++ writesOf (write_confirm s.d).2,
          confirmed := s.confirmed + 1 }
  | opened (s : Sys) (now : Nat) :
      s.d.connected = false →
      SysStep s
        { d := (on_open_complete s.d now).1,
          submitted := s.submitted,
          written := s.written ++ writesOf (on_open_complete s.d now).2,
          confirmed := s.confirmed }

/-- Reachability under `SysStep`. -/
def SysReach : Sys → Sys → Prop := Relation.ReflTransGen SysStep

/-- The fresh instrumented system over a default-constructed daemon. -/
def initSys : Sys :=
  { d := Daemon.init, submitted := [], written := [], confirmed := 0 }

/-- The send-discipline invariant: the write trace followed by the pending
queue is exactly the submission trace (order preserved, nothing lost), the
number of writes exceeds the number of confirmations by one exactly while
the `sending` flag is up, and the flag is down whenever disconnected. -/
def SysInv (s : Sys) : Prop :=
  s.submitted = s.written ++ queueReqs s.d
  ∧ s.written.length = s.confirmed + (if s.d.sending = true then 1 else 0)
  ∧ (s.d.connected = false → s.d.sending = false)

theorem write_confirm_spec (d : Daemon) :
    queueReqs d = writesOf (write_confirm d).2 ++ queueReqs (write_confirm d).1
    ∧ (write_confirm d).1.connected = d.connected
    ∧ (writesOf (write_confirm d).2).length
        = (if (write_confirm d).1.sending = true then 1 else 0) := by
  obtain ⟨e1, e2, e3, e4⟩ := send_next_spec { d with sending := false }
  exact ⟨e1, e2, by simpa using e3⟩

theorem SysInv_step (s s2 : Sys) (hst : SysStep s s2) (hinv : SysInv s) :
    SysInv s2 := by
  obtain ⟨hord, hlen, hcs⟩ := hinv
  cases hst with
  | enq req now =>
    obtain ⟨e1, e2, e3, e4⟩ := enqueue_spec s.d req now
    refine ⟨?_, ?_, ?_⟩ <;> dsimp only
    · rw [hord, List.append_assoc, e1, ← List.append_assoc]
    · rw [List.length_append, hlen]
      omega
    · intro hc2
      have hc : s.d.connected = false := by rw [← e2]; exact hc2
      have hs : s.d.sending = false := hcs hc
      have hempty : writesOf (enqueue s.d req now).2 = [] := e4 hc
      rw [hempty, List.length_nil, hs] at e3
      rcases hx : (enqueue s.d req now).1.sending with _ | _
      · rfl
      · rw [hx] at e3
        simp at e3
  | confirm hsend =>
    obtain ⟨e1, e2, e3⟩ := write_confirm_spec s.d
    refine ⟨?_, ?_, ?_⟩ <;> dsimp only
    · rw [hord, List.append_assoc]
      exact congrArg (fun l => s.written ++ l) e1
    · rw [List.length_append, hlen, hsend]
      have h1 : (if (true : Bool) = true then (1 : Nat) else 0) = 1 := by simp
      omega
    · intro hc2
      have hc : s.d.connected = false := by rw [← e2]; exact hc2
      exact absurd hsend (by simp [hcs hc])
  | opened now hc =>
    obtain ⟨e1, e2, e3⟩ := on_open_spec s.d now
    refine ⟨?_, ?_, ?_⟩ <;> dsimp only
    · rw [hord, List.append_assoc]
      exact congrArg (fun l => s.written ++ l) e1
    · rw [List.length_append, hlen, hcs hc]
      have h0 : (if (false : Bool) = true then (1 : Nat) else 0) = 0 := by simp
      omega
    · intro hc2
      rw [e2] at hc2
      cases hc2

/-- C4: from a fresh daemon, under any interleaving of request submissions,
transport write confirmations and handshake completions, the transport
write trace followed by the still-queued requests is exactly the submission
trace — so requests reach the wire in `query` order, including those issued
while disconnected — at most one write is ever unconfirmed, and while a
write is outstanding a further submission dispatches nothing. -/
theorem c4_write_order (s : Sys) (h : SysReach initSys s) :
    s.submitted = s.written ++ queueReqs s.d
    ∧ s.written.length ≤ s.confirmed + 1
    ∧ (s.d.sending = true →
        ∀ req now, writesOf (enqueue s.d req now).2 = []) := by
  have hinv : SysInv s := by
    induction h with
    | refl => exact ⟨rfl, by simp [initSys, Daemon.init], fun _ => rfl⟩
    | tail hsteps hstep ih => exact SysInv_step _ _ hstep ih
  obtain ⟨h1, h2, h3⟩ := hinv
  refine ⟨h1, by rw [h2]; split <;> omega, ?_⟩
  intro hs req now
  obtain ⟨_, _, e3, _⟩ := enqueue_spec s.d req now
  rw [hs] at e3
  rcases hb : (enqueue s.d req now).1.sending with _ | _
  · rw [hb] at e3
    simp at e3
  · rw [hb] at e3
    simp at e3
    exact e3

/-- Witness for `c4_write_order` at the initial system. -/
theorem c4_write_order_witness :
    initSys.submitted = initSys.written ++ queueReqs initSys.d
    ∧ initSys.written.length ≤ initSys.confirmed + 1
    ∧ (initSys.d.sending = true →
        ∀ req now, writesOf (enqueue initSys.d req now).2 = []) :=
  c4_write_order initSys Relation.ReflTransGen.refl
